import Mathlib

set_option maxRecDepth 4000

namespace Extraction

/-- Python whitespace characters recognised by `str.strip`. -/
def isPySpace (c : Char) : Bool :=
  c == ' ' || c == '\t' || c == '\n' || c == '\r' || c == '\x0b' || c == '\x0c'

/-- Model of Python `str.strip()` on a character list. -/
def pyStrip (l : List Char) : List Char :=
  ((l.dropWhile isPySpace).reverse.dropWhile isPySpace).reverse

/-- Model of Python `str.lower()` (ASCII fragment). -/
def listLower (l : List Char) : List Char := l.map Char.toLower

/-- Model of Python `str.isdigit()` (ASCII fragment: non-empty and all decimal digits). -/
def isDigits (l : List Char) : Bool := !l.isEmpty && l.all Char.isDigit

/-- JSON values as produced by Python `json.loads` (integer numerals only;
floats are not modelled and no theorem below exercises them). -/
inductive JValue where
  | null
  | bool (b : Bool)
  | num (n : Int)
  | str (s : String)
  | arr (xs : List JValue)
  | obj (kvs : List (String × JValue))

def joinComma : List String → String
  | [] => ""
  | [s] => s
  | s :: t => s ++ ", " ++ joinComma t

def sq : String := String.mk [Char.ofNat 39]

mutual

/-- Model of Python `repr()` on decoded JSON values (string escaping inside
`repr` is not modelled; no theorem below exercises it). -/
def pyRepr : JValue → String
  | .null => "None"
  | .bool true => "True"
  | .bool false => "False"
  | .num n => toString n
  | .str s => sq ++ s ++ sq
  | .arr xs => "[" ++ joinComma (pyReprList xs) ++ "]"
  | .obj kvs => "\x7b" ++ joinComma (pyReprPairs kvs) ++ "\x7d"

def pyReprList : List JValue → List String
  | [] => []
  | x :: t => pyRepr x :: pyReprList t

def pyReprPairs : List (String × JValue) → List String
  | [] => []
  | (k, v) :: t => (sq ++ k ++ sq ++ ": " ++ pyRepr v) :: pyReprPairs t

end

/-- Model of Python `str()` applied to a decoded JSON value. -/
def pyStr : JValue → String
  | .str s => s
  | v => pyRepr v

/-- Python truthiness (`if value:`) of decoded JSON values. -/
def pyTruthy : JValue → Bool
  | .null => false
  | .bool b => b
  | .num n => n != 0
  | .str s => s != ""
  | .arr xs => !xs.isEmpty
  | .obj kvs => !kvs.isEmpty

def JValue.isStr : JValue → Bool
  | .str _ => true
  | _ => false

def JValue.isObj : JValue → Bool
  | .obj _ => true
  | _ => false

/-- Model of `pandas.isna` applied to a value decoded from JSON, as used in
boolean context: `None` is missing; scalars, strings and dicts are not; a
list becomes an element-wise boolean array, whose use in boolean context
raises `ValueError` unless it has exactly one element (numpy semantics). -/
def pdIsna : JValue → Except String Bool
  | .null => .ok true
  | .bool _ => .ok false
  | .num _ => .ok false
  | .str _ => .ok false
  | .obj _ => .ok false
  | .arr [x] => pdIsna x
  | .arr _ => .error "ValueError: truth value of an array is ambiguous"

/-! Model of Python `json.loads` for the JSON fragment this program can
encounter: objects, arrays, strings (with escapes), integer numerals,
`true`/`false`/`null`. Fractional/exponent numerals, `NaN`/`Infinity` and
duplicate-key collapsing are not modelled; no theorem exercises them. -/

def jsonWs (c : Char) : Bool := c == ' ' || c == '\t' || c == '\n' || c == '\r'

def skipWs (l : List Char) : List Char := l.dropWhile jsonWs

def hexVal (c : Char) : Option Nat :=
  if c.isDigit then some (c.toNat - 48)
  else if 'a' ≤ c ∧ c ≤ 'f' then some (c.toNat - 87)
  else if 'A' ≤ c ∧ c ≤ 'F' then some (c.toNat - 55)
  else none

def escChar : Char → Option Char
  | '"' => some '"'
  | '\\' => some '\\'
  | '/' => some '/'
  | 'b' => some '\x08'
  | 'f' => some '\x0c'
  | 'n' => some '\n'
  | 'r' => some '\r'
  | 't' => some '\t'
  | _ => none

def parseJStrBody : List Char → List Char → Option (String × List Char)
  | [], _ => none
  | '"' :: rest, acc => some (String.mk acc.reverse, rest)
  | '\\' :: 'u' :: h1 :: h2 :: h3 :: h4 :: rest, acc =>
    match hexVal h1, hexVal h2, hexVal h3, hexVal h4 with
    | some a, some b, some c, some d =>
      parseJStrBody rest (Char.ofNat (((a * 16 + b) * 16 + c) * 16 + d) :: acc)
    | _, _, _, _ => none
  | '\\' :: e :: rest, acc =>
    match escChar e with
    | some c => parseJStrBody rest (c :: acc)
    | none => none
  | c :: rest, acc => if c.toNat < 32 then none else parseJStrBody rest (c :: acc)

/-- Parse a JSON string literal, starting at the opening quote. -/
def parseJStr : List Char → Option (String × List Char)
  | '"' :: rest => parseJStrBody rest []
  | _ => none

def digitsVal (l : List Char) : Nat := l.foldl (fun a c => a * 10 + (c.toNat - 48)) 0

/-- Parse a JSON integer numeral (fractional part or exponent makes this
model parser fail where Python would produce a float). -/
def parseJNum (cs : List Char) : Option (Int × List Char) :=
  let p : Bool × List Char := match cs with
    | '-' :: t => (true, t)
    | _ => (false, cs)
  let ds := p.2.takeWhile Char.isDigit
  let rest := p.2.dropWhile Char.isDigit
  if ds.isEmpty then none
  else if ds.length ≥ 2 && ds.headD ' ' == '0' then none
  else match rest with
    | '.' :: _ => none
    | 'e' :: _ => none
    | 'E' :: _ => none
    | _ => some (if p.1 then -(digitsVal ds : Int) else (digitsVal ds : Int), rest)

mutual

def parseJVal : Nat → List Char → Option (JValue × List Char)
  | 0, _ => none
  | fuel + 1, cs =>
    match cs with
    | '\x7b' :: rest =>
      match skipWs rest with
      | '\x7d' :: r => some (JValue.obj [], r)
      | cs1 =>
        match parseJMembers fuel cs1 with
        | some (kvs, r) => some (JValue.obj kvs, r)
        | none => none
    | '[' :: rest =>
      match skipWs rest with
      | ']' :: r => some (JValue.arr [], r)
      | cs1 =>
        match parseJItems fuel cs1 with
        | some (xs, r) => some (JValue.arr xs, r)
        | none => none
    | '"' :: _ =>
      match parseJStr cs with
      | some (s, r) => some (JValue.str s, r)
      | none => none
    | 't' :: 'r' :: 'u' :: 'e' :: r => some (JValue.bool true, r)
    | 'f' :: 'a' :: 'l' :: 's' :: 'e' :: r => some (JValue.bool false, r)
    | 'n' :: 'u' :: 'l' :: 'l' :: r => some (JValue.null, r)
    | _ =>
      match parseJNum cs with
      | some (n, r) => some (JValue.num n, r)
      | none => none

def parseJMembers : Nat → List Char → Option (List (String × JValue) × List Char)
  | 0, _ => none
  | fuel + 1, cs =>
    match parseJStr cs with
    | none => none
    | some (k, r1) =>
      match skipWs r1 with
      | ':' :: r2 =>
        match parseJVal fuel (skipWs r2) with
        | none => none
        | some (v, r3) =>
          match skipWs r3 with
          | ',' :: r4 =>
            match parseJMembers fuel (skipWs r4) with
            | some (kvs, r5) => some ((k, v) :: kvs, r5)
            | none => none
          | '\x7d' :: r4 => some ([(k, v)], r4)
          | _ => none
      | _ => none

def parseJItems : Nat → List Char → Option (List JValue × List Char)
  | 0, _ => none
  | fuel + 1, cs =>
    match parseJVal fuel cs with
    | none => none
    | some (v, r1) =>
      match skipWs r1 with
      | ',' :: r2 =>
        match parseJItems fuel (skipWs r2) with
        | some (xs, r3) => some (v :: xs, r3)
        | none => none
      | ']' :: r2 => some ([v], r2)
      | _ => none

end

/-- Model of Python `json.loads` on a character list: decode one JSON value
surrounded by optional whitespace, fail (Python: `JSONDecodeError`) otherwise. -/
def loadsL (cs : List Char) : Option JValue :=
  match parseJVal (cs.length + 1) (skipWs cs) with
  | some (v, rest) => if (skipWs rest).isEmpty then some v else none
  | none => none

/-- First index of a character in a list, or `none`. -/
def idxOf (c : Char) : List Char → Option Nat
  | [] => none
  | x :: t => if x == c then some 0 else (idxOf c t).map (· + 1)

/-- Last index of a character in a list, or `none`. -/
def lastIdxOf (c : Char) (l : List Char) : Option Nat :=
  (idxOf c l.reverse).map (fun k => l.length - 1 - k)

/-- Model of Python `str.find` for a single character (first index or -1). -/
def pyFindChar (cs : List Char) (c : Char) : Int :=
  match idxOf c cs with
  | some i => (i : Int)
  | none => -1

/-- Model of Python `str.rfind` for a single character (last index or -1). -/
def pyRfindChar (cs : List Char) (c : Char) : Int :=
  match lastIdxOf c cs with
  | some i => (i : Int)
  | none => -1

/-- Model of `LlmProcessor._parse_model_output` (llm-extraction-system.py,
lines 767-794): find the first brace and the last closing brace; if both
exist in order, decode that slice, else decode the whole output; a
`json.JSONDecodeError` from either decode is caught and yields the empty
dict. -/
def parse_model_output (output : String) : JValue :=
  let cs := output.data
  let json_start := pyFindChar cs '\x7b'
  let json_end := pyRfindChar cs '\x7d' + 1
  if 0 ≤ json_start ∧ json_start < json_end then
    match loadsL ((cs.take json_end.toNat).drop json_start.toNat) with
    | some v => v
    | none => JValue.obj []
  else
    match loadsL cs with
    | some v => v
    | none => JValue.obj []

/-- Response-parsing algorithm as the amended claim C3 words it: locate the
first brace and the last closing brace; when both exist and are ordered,
decode that substring, returning the empty mapping on decode failure with no
further attempt; only when no ordered brace pair exists, decode the entire
reply, returning the empty mapping on failure. -/
def parse_model_output_amended (output : String) : JValue :=
  let cs := output.data
  match idxOf '\x7b' cs, lastIdxOf '\x7d' cs with
  | some i, some j =>
    if i ≤ j then
      match loadsL ((cs.take (j + 1)).drop i) with
      | some v => v
      | none => JValue.obj []
    else
      match loadsL cs with
      | some v => v
      | none => JValue.obj []
  | _, _ =>
    match loadsL cs with
    | some v => v
    | none => JValue.obj []

/-! URL recognition: `ExcelProcessor._is_url` (lines 311-326) matches the
anchored pattern
`^(https?:\/\/)?(www\.)?[-a-zA-Z0-9@:%._\+~#=]{1,256}\.[a-zA-Z0-9()]{1,6}\b([-a-zA-Z0-9()@:%_\+.~#?&//=]*)`
against the stripped text.  The trailing group always matches, so the match
succeeds iff some choice of optional scheme, optional `www.`, host length
and TLD length fits; the search below enumerates those choices. -/

def isAsciiAlphaNum (c : Char) : Bool := c.isAlpha || c.isDigit

/-- Character class `[-a-zA-Z0-9@:%._\+~#=]` (host part). -/
def urlHostChar (c : Char) : Bool :=
  isAsciiAlphaNum c || c == '-' || c == '@' || c == ':' || c == '%' || c == '.' ||
    c == '_' || c == '+' || c == '~' || c == '#' || c == '='

/-- Character class `[a-zA-Z0-9()]` (TLD part). -/
def urlTldChar (c : Char) : Bool := isAsciiAlphaNum c || c == '(' || c == ')'

/-- Regex word character for `\b` (ASCII fragment of `\w`). -/
def isWordCh (c : Char) : Bool := isAsciiAlphaNum c || c == '_'

/-- Word-boundary test between the character before and after a position. -/
def wordBoundary (prev next : Option Char) : Bool :=
  (match prev with | some c => isWordCh c | none => false) !=
    (match next with | some c => isWordCh c | none => false)

/-- Does a TLD of length 1..6 followed by a word boundary start here? -/
def tldOk (l : List Char) : Bool :=
  (List.range' 1 6).any fun j =>
    decide (j ≤ l.length) && (l.take j).all urlTldChar &&
      wordBoundary (l.get? (j - 1)) (l.get? j)

/-- Does `host{1,256} '.' tld{1,6} \b` start here? -/
def hostTld (l : List Char) : Bool :=
  (List.range' 1 256).any fun k =>
    (l.take k).all urlHostChar && l.get? k == some '.' && (l.take k).length == k &&
      tldOk (l.drop (k + 1))

def dropLit : List Char → List Char → Option (List Char)
  | [], l => some l
  | c :: p, x :: l => if x == c then dropLit p l else none
  | _ :: _, [] => none

/-- Model of `ExcelProcessor._is_url` (lines 311-326). -/
def is_url (text : String) : Bool :=
  let t := pyStrip text.data
  let afterScheme : List (List Char) :=
    [t] ++ (match dropLit "http://".data t with | some r => [r] | none => []) ++
      (match dropLit "https://".data t with | some r => [r] | none => [])
  afterScheme.any fun u =>
    ([u] ++ (match dropLit "www.".data u with | some r => [r] | none => [])).any hostTld

/-- Spreadsheet cell values as far as the selector observes them: missing
(`NaN`/`None`), a string, or some other scalar (modelled by an integer). -/
inductive Cell where
  | na
  | str (s : String)
  | int (n : Int)
deriving DecidableEq

def Cell.isnaB : Cell → Bool
  | .na => true
  | _ => false

/-- Python `cell == ""` (true only for the empty string). -/
def Cell.eqEmptyStr : Cell → Bool
  | .str s => s == ""
  | _ => false

/-- The `Notes` disjunct of the filter: `isna ∨ == "" ∨ (isinstance str ∧ _is_url)`. -/
def Cell.urlB : Cell → Bool
  | .str s => is_url s
  | _ => false

/-- Model of the row predicate of `ExcelProcessor.filter_rows` (lines 279-309):
the boolean mask applied to each row's `Notes`, `Verifier` and `Error` cells. -/
def rowEligible (notes verifier error : Cell) : Bool :=
  (notes.isnaB || notes.eqEmptyStr || notes.urlB) &&
    (verifier.isnaB || verifier.eqEmptyStr) && (error.isnaB || error.eqEmptyStr)

/-- Emptiness of a cell as the specification words it. -/
def cellEmpty (c : Cell) : Prop := c = Cell.na ∨ c = Cell.str ""

/-! Date handling: model of `DataFormatter.format_date` (lines 49-133) and of
the fragment of CPython `datetime.strptime` it relies on.  In `_strptime`,
`%d` compiles to `(3[01]|[12]\d|0[1-9]|[1-9])`, `%m` to `(1[0-2]|0[1-9]|[1-9])`,
`%Y` to `\d{4}`, `%y` to `\d\d` (00-68 mapped to 2000+, 69-99 to 1900+),
`%B`/`%b` to the English month-name alternations, whitespace in the format to
`\s+`, and matching is case-insensitive over the whole string.  In the format
strings used here every directive is followed by a non-digit, non-space
separator (or the end), so taking the two-digit alternative when it is valid,
else one digit, and consuming maximal whitespace, is equivalent to the
backtracking regex. -/

inductive DTok where
  | Y
  | y
  | m
  | d
  | B
  | b
  | ws
  | lit (c : Char)
deriving DecidableEq

def fmtTokens : List Char → List DTok
  | [] => []
  | '%' :: c :: rest =>
    (match c with
     | 'Y' => DTok.Y
     | 'y' => DTok.y
     | 'm' => DTok.m
     | 'd' => DTok.d
     | 'B' => DTok.B
     | 'b' => DTok.b
     | c2 => DTok.lit c2) :: fmtTokens rest
  | ' ' :: rest => DTok.ws :: fmtTokens rest
  | c :: rest => DTok.lit c :: fmtTokens rest

def monthsFull : List (List Char) :=
  ["january".data, "february".data, "march".data, "april".data, "may".data,
   "june".data, "july".data, "august".data, "september".data, "october".data,
   "november".data, "december".data]

def monthsAbbr : List (List Char) :=
  ["jan".data, "feb".data, "mar".data, "apr".data, "may".data, "jun".data,
   "jul".data, "aug".data, "sep".data, "oct".data, "nov".data, "dec".data]

/-- Case-insensitive month-name alternation: the matching name's 1-based
index and the rest of the input (names are mutually non-prefix). -/
def matchMonthAux : List (List Char) → Nat → List Char → Option (Nat × List Char)
  | [], _, _ => none
  | n :: t, i, cs =>
    if (cs.take n.length).map Char.toLower == n then some (i, cs.drop n.length)
    else matchMonthAux t (i + 1) cs

def dval1 (c : Char) : Nat := c.toNat - 48

def dval2 (c1 c2 : Char) : Nat := dval1 c1 * 10 + dval1 c2

/-- Directive `%d`: two digits valued 1..31 if possible, else one digit 1..9. -/
def dayTake : List Char → Option (Nat × List Char)
  | c1 :: c2 :: rest =>
    if c1.isDigit && c2.isDigit && decide (1 ≤ dval2 c1 c2) && decide (dval2 c1 c2 ≤ 31) then
      some (dval2 c1 c2, rest)
    else if c1.isDigit && decide (1 ≤ dval1 c1) then some (dval1 c1, c2 :: rest)
    else none
  | [c1] => if c1.isDigit && decide (1 ≤ dval1 c1) then some (dval1 c1, []) else none
  | [] => none

/-- Directive `%m`: two digits valued 1..12 if possible, else one digit 1..9. -/
def monTake : List Char → Option (Nat × List Char)
  | c1 :: c2 :: rest =>
    if c1.isDigit && c2.isDigit && decide (1 ≤ dval2 c1 c2) && decide (dval2 c1 c2 ≤ 12) then
      some (dval2 c1 c2, rest)
    else if c1.isDigit && decide (1 ≤ dval1 c1) then some (dval1 c1, c2 :: rest)
    else none
  | [c1] => if c1.isDigit && decide (1 ≤ dval1 c1) then some (dval1 c1, []) else none
  | [] => none

/-- Directive `%Y`: exactly four digits. -/
def year4Take : List Char → Option (Nat × List Char)
  | c1 :: c2 :: c3 :: c4 :: rest =>
    if c1.isDigit && c2.isDigit && c3.isDigit && c4.isDigit then
      some ((dval2 c1 c2) * 100 + dval2 c3 c4, rest)
    else none
  | _ => none

/-- Directive `%y`: exactly two digits, 00-68 in the 2000s, 69-99 in the 1900s. -/
def year2Take : List Char → Option (Nat × List Char)
  | c1 :: c2 :: rest =>
    if c1.isDigit && c2.isDigit then
      some (if dval2 c1 c2 ≤ 68 then 2000 + dval2 c1 c2 else 1900 + dval2 c1 c2, rest)
    else none
  | _ => none

structure DVals where
  yv : Option Nat
  mv : Option Nat
  dv : Option Nat

def matchToks : List DTok → List Char → DVals → Option DVals
  | [], cs, v => if cs.isEmpty then some v else none
  | DTok.lit c :: ts, cs, v =>
    match cs with
    | [] => none
    | c2 :: rest => if c.toLower == c2.toLower then matchToks ts rest v else none
  | DTok.ws :: ts, cs, v =>
    let k := (cs.takeWhile isPySpace).length
    if k == 0 then none else matchToks ts (cs.drop k) v
  | DTok.d :: ts, cs, v =>
    match dayTake cs with
    | some (n, r) => matchToks ts r (DVals.mk v.yv v.mv (some n))
    | none => none
  | DTok.m :: ts, cs, v =>
    match monTake cs with
    | some (n, r) => matchToks ts r (DVals.mk v.yv (some n) v.dv)
    | none => none
  | DTok.Y :: ts, cs, v =>
    match year4Take cs with
    | some (n, r) => matchToks ts r (DVals.mk (some n) v.mv v.dv)
    | none => none
  | DTok.y :: ts, cs, v =>
    match year2Take cs with
    | some (n, r) => matchToks ts r (DVals.mk (some n) v.mv v.dv)
    | none => none
  | DTok.B :: ts, cs, v =>
    match matchMonthAux monthsFull 1 cs with
    | some (i, r) => matchToks ts r (DVals.mk v.yv (some i) v.dv)
    | none => none
  | DTok.b :: ts, cs, v =>
    match matchMonthAux monthsAbbr 1 cs with
    | some (i, r) => matchToks ts r (DVals.mk v.yv (some i) v.dv)
    | none => none

def isLeap (y : Nat) : Bool := (y % 4 == 0 && y % 100 != 0) || y % 400 == 0

def daysInMonth (y m : Nat) : Nat :=
  if m == 2 then (if isLeap y then 29 else 28)
  else if m == 4 || m == 6 || m == 9 || m == 11 then 30
  else 31

/-- Model of `datetime.strptime(data, fmt)` for the formats used here:
defaults are year 1900, month 1, day 1; the `datetime` constructor then
validates the day against the month length and the year against `MINYEAR`. -/
def strptimeL (fmt : String) (cs : List Char) : Option (Nat × Nat × Nat) :=
  match matchToks (fmtTokens fmt.data) cs (DVals.mk none none none) with
  | some v =>
    let y := v.yv.getD 1900
    let m := v.mv.getD 1
    let d := v.dv.getD 1
    if 1 ≤ y ∧ d ≤ daysInMonth y m then some (y, m, d) else none
  | none => none

/-- The check `'%Y' not in fmt and '%y' not in fmt` of line 108. -/
def fmtHasYear (fmt : String) : Bool :=
  (fmtTokens fmt.data).any fun t => t == DTok.Y || t == DTok.y

def natDigits (n : Nat) : String := toString n

def pad2 (n : Nat) : String := if n < 10 then "0" ++ natDigits n else natDigits n

def pad4 (n : Nat) : String :=
  if n < 10 then "000" ++ natDigits n
  else if n < 100 then "00" ++ natDigits n
  else if n < 1000 then "0" ++ natDigits n
  else natDigits n

/-- Model of `date_obj.strftime('%Y-%m-%d')`. -/
def strftimeYMD (y m d : Nat) : String := pad4 y ++ "-" ++ pad2 m ++ "-" ++ pad2 d

/-- The `date_formats` list of lines 66-81, in order. -/
def dateFormatsList : List String :=
  ["%Y-%m-%d",
   "%d %B %Y", "%d %b %Y", "%B %d, %Y", "%b %d, %Y",
   "%d.%m.%Y", "%d/%m/%Y", "%m/%d/%Y", "%Y/%m/%d",
   "%d %B, %Y", "%d %b, %Y", "%d.%B.%Y", "%d.%b.%Y",
   "%d %B", "%d %b", "%B %d", "%b %d",
   "%dth of %B, %Y", "%dth of %B %Y", "%dst of %B %Y", "%dnd of %B %Y", "%drd of %B %Y",
   "%dth of %b, %Y", "%dth of %b %Y", "%dst of %b %Y", "%dnd of %b %Y", "%drd of %b %Y",
   "%d.%m.%y", "%d/%m/%y", "%m/%d/%y", "%y/%m/%d"]

/-- The format loop of lines 103-113: first successful format wins; a format
without year information gets the current year substituted. -/
def tryFormats (curYear : Nat) (cs : List Char) : List String → Option String
  | [] => none
  | fmt :: rest =>
    match strptimeL fmt cs with
    | some (y, m, d) =>
      if fmtHasYear fmt then some (strftimeYMD y m d) else some (strftimeYMD curYear m d)
    | none => tryFormats curYear cs rest

def takeDigitsSplit (cs : List Char) : List Char × List Char :=
  (cs.takeWhile Char.isDigit, cs.dropWhile Char.isDigit)

def takeWordSplit (cs : List Char) : List Char × List Char :=
  (cs.takeWhile isWordCh, cs.dropWhile isWordCh)

def ordSuffix : List Char → Option (List Char)
  | 's' :: 't' :: r => some r
  | 'n' :: 'd' :: r => some r
  | 'r' :: 'd' :: r => some r
  | 't' :: 'h' :: r => some r
  | _ => none

/-- Exactly four leading digits (`\d{4}` as a prefix; the rest is ignored). -/
def fourDigits : List Char → Option (List Char)
  | a :: b :: c :: d :: _ =>
    if a.isDigit && b.isDigit && c.isDigit && d.isDigit then some [a, b, c, d] else none
  | _ => none

/-- Regex rewrite `(\d+)(?:st|nd|rd|th) of (\w+),? (\d{4})` via `re.match`
(lines 85-88); in this pattern the greedy runs are forced, so a
deterministic scan is equivalent to the regex. -/
def specialRewrite (cs : List Char) : Option (List Char) :=
  let p := takeDigitsSplit cs
  if p.1.isEmpty then none else
  match ordSuffix p.2 with
  | none => none
  | some r2 =>
    match r2 with
    | ' ' :: 'o' :: 'f' :: ' ' :: r3 =>
      let w := takeWordSplit r3
      if w.1.isEmpty then none else
      let r5 := match w.2 with
        | ',' :: t => t
        | u => u
      match r5 with
      | ' ' :: r6 =>
        match fourDigits r6 with
        | some ys => some (p.1 ++ ' ' :: (w.1 ++ ' ' :: ys))
        | none => none
      | _ => none
    | _ => none

/-- Regex rewrite `(\d+)\.(\w+)\.(\d{4})` via `re.match` (lines 91-94). -/
def dotRewrite (cs : List Char) : Option (List Char) :=
  let p := takeDigitsSplit cs
  if p.1.isEmpty then none else
  match p.2 with
  | '.' :: r2 =>
    let w := takeWordSplit r2
    if w.1.isEmpty then none else
    match w.2 with
    | '.' :: r4 =>
      match fourDigits r4 with
      | some ys => some (p.1 ++ ' ' :: (w.1 ++ ' ' :: ys))
      | none => none
    | _ => none
  | _ => none

/-- Regex rewrite `(\d+) (\w+), (\d{4})` via `re.match` (lines 97-100). -/
def commaRewrite (cs : List Char) : Option (List Char) :=
  let p := takeDigitsSplit cs
  if p.1.isEmpty then none else
  match p.2 with
  | ' ' :: r2 =>
    let w := takeWordSplit r2
    if w.1.isEmpty then none else
    match w.2 with
    | ',' :: ' ' :: r4 =>
      match fourDigits r4 with
      | some ys => some (p.1 ++ ' ' :: (w.1 ++ ' ' :: ys))
      | none => none
    | _ => none
  | _ => none

/-- One attempt of `re.search(r'(\w+) (\d+) (\w+) (\d{4})', ...)` at a fixed
position (the separators cannot be word characters, so maximal runs are
equivalent to the backtracking regex). -/
def weekdayAt (cs : List Char) : Option (List Char × List Char × List Char) :=
  let w1 := takeWordSplit cs
  if w1.1.isEmpty then none else
  match w1.2 with
  | ' ' :: r2 =>
    let ds := takeDigitsSplit r2
    if ds.1.isEmpty then none else
    match ds.2 with
    | ' ' :: r4 =>
      let w3 := takeWordSplit r4
      if w3.1.isEmpty then none else
      match w3.2 with
      | ' ' :: r6 =>
        match fourDigits r6 with
        | some ys => some (ds.1, w3.1, ys)
        | none => none
      | _ => none
    | _ => none
  | _ => none

/-- Leftmost match of the weekday pattern (the `re.search` of line 117). -/
def weekdaySearchAux : List Char → Option (List Char × List Char × List Char)
  | [] => none
  | c :: t =>
    match weekdayAt (c :: t) with
    | some g => some g
    | none => weekdaySearchAux t

/-- Lines 117-129: on a weekday-pattern match, retry `"day month year"`
against `%d %B %Y` then `%d %b %Y`. -/
def weekdayFallback (cs : List Char) : Option String :=
  match weekdaySearchAux cs with
  | none => none
  | some (ds, w3, ys) =>
    let temp := ds ++ ' ' :: (w3 ++ ' ' :: ys)
    match strptimeL "%d %B %Y" temp with
    | some (y, m, d) => some (strftimeYMD y m d)
    | none =>
      match strptimeL "%d %b %Y" temp with
      | some (y, m, d) => some (strftimeYMD y m d)
      | none => none

/-- Model of `DataFormatter.format_date` (lines 49-133), parameterised by the
current year (`datetime.now().year`).  `Except.error` marks exactly the
points where the Python code would raise (`pd.isna` on a multi-element
list). -/
def format_date (curYear : Nat) (v : JValue) : Except String String :=
  if !pyTruthy v then .ok "" else
  match pdIsna v with
  | .error e => .error e
  | .ok na =>
    if na then .ok "" else
    let ds0 := pyStrip (pyStr v).data
    let ds1 := match specialRewrite ds0 with
      | some r => r
      | none => ds0
    let ds2 := match dotRewrite ds1 with
      | some r => r
      | none => ds1
    let ds3 := match commaRewrite ds2 with
      | some r => r
      | none => ds2
    match tryFormats curYear ds3 dateFormatsList with
    | some out => .ok out
    | none =>
      match weekdayFallback ds3 with
      | some out => .ok out
      | none => .ok (String.mk ds3)

def yesList : List String := ["yes", "y", "true", "1"]

def noList : List String := ["no", "n", "false", "0"]

/-- Python `value == ""` on a decoded JSON value. -/
def eqEmptyString : JValue → Bool
  | .str s => s == ""
  | _ => false

/-- Model of `DataFormatter.normalize_value` (lines 135-163); `Except.error`
marks the points where the Python code would raise (`pd.isna` on a
multi-element list). -/
def normalize_value (v : JValue) : Except String String :=
  match pdIsna v with
  | .error e => .error e
  | .ok na =>
    if na || eqEmptyString v then .ok "" else
    let vs := String.mk (listLower (pyStrip (pyStr v).data))
    if vs ∈ yesList then .ok "1"
    else if vs ∈ noList then .ok ""
    else if vs ≠ "" ∧ vs ≠ "nan" then
      (if isDigits vs.data then .ok vs else .ok "1")
    else .ok ""

/-- The English-number map of lines 212-220. -/
def englishPairs : List (String × String) :=
  [("zero", "0"), ("one", "1"), ("two", "2"), ("three", "3"), ("four", "4"),
   ("five", "5"), ("six", "6"), ("seven", "7"), ("eight", "8"), ("nine", "9"),
   ("ten", "10"), ("eleven", "11"), ("twelve", "12"), ("thirteen", "13"),
   ("fourteen", "14"), ("fifteen", "15"), ("sixteen", "16"),
   ("seventeen", "17"), ("eighteen", "18"), ("nineteen", "19"),
   ("twenty", "20"), ("thirty", "30"), ("forty", "40"), ("fifty", "50"),
   ("sixty", "60"), ("seventy", "70"), ("eighty", "80"), ("ninety", "90")]

/-- The `Number_Places` branch of `DataFormatter.process_results` (lines
205-232): digit strings pass through stripped, spelled-out English numbers
are mapped, any other non-empty string passes through stripped with a logged
warning, everything else becomes the empty string.  This branch never
raises. -/
def quantityBranch (v : JValue) : String :=
  if pyTruthy v && isDigits (pyStrip (pyStr v).data) then String.mk (pyStrip (pyStr v).data)
  else if pyTruthy v && v.isStr then
    let vl := String.mk (listLower (pyStrip (pyStr v).data))
    match englishPairs.lookup vl with
    | some n => n
    | none => String.mk (pyStrip (pyStr v).data)
  else ""

/-- The text/translation/default branch of `process_results` (lines 234-241):
`str(value).strip() if value and not pd.isna(value) else ""`. -/
def textBranch (v : JValue) : Except String String :=
  if !pyTruthy v then .ok "" else
  match pdIsna v with
  | .error e => .error e
  | .ok na => .ok (if na then "" else String.mk (pyStrip (pyStr v).data))

def categoryFields : List String :=
  ["Master Student", "Doctoral Student", "PostDoc", "Research Assistant",
   "Competition", "Summer School", "Conference", "Workshop",
   "Physical_Geo", "Human_Geo", "Urban", "GIS", "RS", "GNSS"]

def dateFields : List String := ["Deadline"]

def numberFields : List String := ["Number_Places"]

def translationFields : List String := ["University_CN", "Country_CN"]

def excludedFields : List String := ["Notes", "Source", "Verifier", "Error"]

/-- The `text_fields` list computed by exclusion on lines 193-195. -/
def textFieldsOf (keys : List String) : List String :=
  keys.filter fun k =>
    !(categoryFields.contains k) && !(dateFields.contains k) &&
      !(numberFields.contains k) && !(translationFields.contains k) &&
      !(excludedFields.contains k)

/-- The per-key dispatch of the loop body of lines 197-241. -/
def processOne (curYear : Nat) (tf : List String) (k : String) (v : JValue) :
    Except String String :=
  if dateFields.contains k then format_date curYear v
  else if categoryFields.contains k then normalize_value v
  else if numberFields.contains k then .ok (quantityBranch v)
  else if tf.contains k || translationFields.contains k then textBranch v
  else textBranch v

def processList (curYear : Nat) (tf : List String) :
    List (String × JValue) → Except String (List (String × String))
  | [] => .ok []
  | (k, v) :: t =>
    match processOne curYear tf k v with
    | .error e => .error e
    | .ok o =>
      match processList curYear tf t with
      | .error e => .error e
      | .ok r => .ok ((k, o) :: r)

/-- Model of `DataFormatter.process_results` (lines 165-243) over the decoded
reply as an ordered association list (Python dicts preserve insertion
order). -/
def process_results (curYear : Nat) (kvs : List (String × JValue)) :
    Except String (List (String × String)) :=
  processList curYear (textFieldsOf (kvs.map Prod.fst)) kvs

/-- The worksheet as openpyxl exposes it: a total assignment of cells to
(1-based) row and column coordinates. -/
abbrev Worksheet := Nat → Nat → Cell

def setCell (ws : Worksheet) (r c : Nat) (v : Cell) : Worksheet :=
  fun r2 c2 => if r2 = r ∧ c2 = c then v else ws r2 c2

def idxOfStr (name : String) : List String → Option Nat
  | [] => none
  | x :: t => if x == name then some 0 else (idxOfStr name t).map (· + 1)

/-- Model of `ExcelProcessor._get_column_index` (lines 374-390): 1-based
index of the column name in the loaded frame's columns, 0 when absent
(`ValueError` caught). -/
def getColumnIndex (cols : List String) (name : String) : Nat :=
  match idxOfStr name cols with
  | some i => i + 1
  | none => 0

/-- Model of `ExcelProcessor.write_results` (lines 328-372).  Its own
`try/except` swallows every exception, so a raise inside (writing to column
0, or `process_results` raising) leaves the worksheet as it was at that
point; `workbook.save` is persistence and not modelled. -/
def write_results (curYear : Nat) (cols : List String) (ws : Worksheet) (rowIndex : Nat)
    (results : JValue) (hasError : Bool) (errorMsg : String) : Worksheet :=
  let excelRow := rowIndex + 2
  if hasError then
    let ec := getColumnIndex cols "Error"
    if ec = 0 then ws else setCell ws excelRow ec (Cell.str errorMsg)
  else
    match results with
    | JValue.obj kvs =>
      match process_results curYear kvs with
      | .error _ => ws
      | .ok processed =>
        let ws1 := processed.foldl
          (fun w p =>
            let ci := getColumnIndex cols p.1
            if ci = 0 then w else setCell w excelRow ci (Cell.str p.2)) ws
        let vc := getColumnIndex cols "Verifier"
        if vc = 0 then ws1 else setCell ws1 excelRow vc (Cell.str "LLM")
    | _ => ws

/-- One row of the filtered frame as the loop of `ExtractionSystem.run`
reads it: the DataFrame index and the `Notes` and `Source` cells. -/
structure RowData where
  idx : Nat
  notes : Cell
  source : Cell

/-- The external collaborators at their interface boundary: the HTTP fetch
(plus HTML/PDF text extraction) and the LLM transport.  Each either returns
text or raises (`Except.error`). -/
structure Env where
  httpGet : String → Except String String
  llmPost : String → Except String String

/-- Model of the content fetcher (`WebPageExtractor.extract_content`,
lines 408-533) at its interface: on a request exception the bracketed
failure-marker string is RETURNED as text, not raised; the HTML/PDF branches
are symmetric and are both represented by `httpGet`. -/
def extract_content (env : Env) (url : String) : String :=
  match env.httpGet (String.mk (pyStrip url.data)) with
  | .ok text => text
  | .error e => "[提取失败: " ++ e ++ "]"

/-- Model of `LlmProcessor.extract_structured_info` (lines 582-626) at its
interface: prompt construction is deterministic and absorbed into the
`llmPost` oracle; a transport failure is re-raised, a successful reply is
parsed (the parser itself never raises). -/
def extract_structured_info (env : Env) (text : String) : Except String JValue :=
  match env.llmPost text with
  | .ok raw => .ok (parse_model_output raw)
  | .error e => .error e

/-- Lines 846-850: `url = row[url_column]; if not url or pd.isna(url):
continue`.  A non-string, non-empty URL value later raises at
`url.strip()` inside `extract_content`; that raise is modelled here at the
same observable point (inside the row's `try`). -/
def sourceUrl : Cell → Except String (Option String)
  | Cell.na => .ok none
  | Cell.str s => if s = "" then .ok none else .ok (some s)
  | Cell.int n =>
    if n = 0 then .ok none
    else .error "AttributeError: int object has no attribute strip"

/-- The body of the per-row `try` block of `ExtractionSystem.run` (lines
839-866): choose the URL (Notes overrides Source when it is a URL), fetch,
extract via the LLM, write the results back. -/
def rowBody (curYear : Nat) (env : Env) (cols : List String) (ws : Worksheet)
    (row : RowData) : Except String Worksheet :=
  let notesValue : Cell := if row.notes = Cell.na then Cell.str "" else row.notes
  let urlChoice : Except String (Option String) :=
    match notesValue with
    | Cell.str s =>
      if is_url s then .ok (some (String.mk (pyStrip s.data)))
      else sourceUrl row.source
    | _ => sourceUrl row.source
  match urlChoice with
  | .error e => .error e
  | .ok none => .ok ws
  | .ok (some url) =>
    let content := extract_content env url
    match extract_structured_info env content with
    | .error e => .error e
    | .ok info => .ok (write_results curYear cols ws row.idx info false "")

/-- One iteration of the row loop of `ExtractionSystem.run` (lines 838-871):
the `except` arm converts any raise from the body into an error write. -/
def processRow (curYear : Nat) (env : Env) (cols : List String) (ws : Worksheet)
    (row : RowData) : Worksheet :=
  match rowBody curYear env cols ws row with
  | .ok ws2 => ws2
  | .error e => write_results curYear cols ws row.idx (JValue.obj []) true ("处理失败: " ++ e)

/-- Model of the row loop of `ExtractionSystem.run` over the selected rows
(batch throttling is timing only and not modelled). -/
def runRows (curYear : Nat) (env : Env) (cols : List String) (ws : Worksheet)
    (rows : List RowData) : Worksheet :=
  rows.foldl (processRow curYear env cols) ws

/-! Concrete scenario instances used by the run-level theorems. -/

def wsEmpty : Worksheet := fun _ _ => Cell.na

def cols9 : List String := ["Source", "Notes", "Verifier", "Error", "Deadline"]

def row9 : RowData := RowData.mk 0 Cell.na (Cell.str "http://example.com")

def env9 : Env :=
  Env.mk (fun _ => .ok "page") (fun _ => .ok "\x7b\"Deadline\": [1, 2]\x7d")

def envT : Env := Env.mk (fun _ => .ok "page") (fun _ => .error "connection refused")

def cols7 : List String := ["Source", "Notes", "Verifier", "Error"]

def row7 : RowData := RowData.mk 0 Cell.na (Cell.str "http://example.com/a.pdf")

def env7 : Env := Env.mk (fun _ => .error "timeout") (fun _ => .ok "\x7b\x7d")

/-! Helper lemmas. -/

theorem digit_toLower (c : Char) (h : c.isDigit = true) : c.toLower = c := by
  simp only [Char.isDigit, Bool.and_eq_true, decide_eq_true_eq] at h
  unfold Char.toLower
  rw [if_neg]
  intro h1
  obtain ⟨hl, _⟩ := h1
  have h2 := h.2
  rw [UInt32.le_def, BitVec.le_def] at h2
  unfold Char.toNat UInt32.toNat at hl
  have h57 : ((57 : UInt32)).toBitVec.toNat = 57 := rfl
  omega

theorem digit_not_pyspace (c : Char) (h : c.isDigit = true) : isPySpace c = false := by
  unfold isPySpace
  simp only [Bool.or_eq_false_iff, beq_eq_false_iff_ne, ne_eq]
  refine ⟨⟨⟨⟨⟨?_, ?_⟩, ?_⟩, ?_⟩, ?_⟩, ?_⟩ <;> rintro rfl <;> simp at h

theorem dropWhile_of_all_not {p : Char → Bool} :
    ∀ l : List Char, (∀ c ∈ l, p c = false) → l.dropWhile p = l
  | [], _ => rfl
  | c :: t, h => by
    rw [List.dropWhile_cons, h c (List.mem_cons_self c t)]
    exact if_neg (by simp)

theorem pyStrip_of_digits (l : List Char) (h : l.all Char.isDigit = true) : pyStrip l = l := by
  rw [List.all_eq_true] at h
  have hns : ∀ c ∈ l, isPySpace c = false := fun c hc => digit_not_pyspace c (h c hc)
  unfold pyStrip
  rw [dropWhile_of_all_not l hns,
    dropWhile_of_all_not l.reverse (fun c hc => hns c (List.mem_reverse.mp hc)),
    List.reverse_reverse]

theorem listLower_of_digits (l : List Char) (h : l.all Char.isDigit = true) :
    listLower l = l := by
  rw [List.all_eq_true] at h
  unfold listLower
  have h2 : ∀ c ∈ l, Char.toLower c = id c := fun c hc => digit_toLower c (h c hc)
  rw [List.map_congr_left h2, List.map_id]

theorem data_nil_iff {s : String} : s.data = [] ↔ s = "" := by
  constructor
  · intro h
    exact String.ext h
  · intro h
    rw [h]

theorem lookup_mem_snd {l : List (String × String)} {k v : String}
    (h : l.lookup k = some v) : v ∈ l.map Prod.snd := by
  induction l with
  | nil => simp [List.lookup] at h
  | cons p t ih =>
    rw [List.lookup] at h
    split at h
    · injection h with h2
      subst h2
      exact List.mem_cons_self _ _
    · exact List.mem_cons_of_mem _ (ih h)

theorem english_digits {k v : String} (h : englishPairs.lookup k = some v) :
    v.data.all Char.isDigit = true := by
  have hall : ∀ x ∈ englishPairs.map Prod.snd, x.data.all Char.isDigit = true := by decide
  exact hall v (lookup_mem_snd h)

theorem isnaB_true_iff (c : Cell) : c.isnaB = true ↔ c = Cell.na := by
  cases c <;> simp [Cell.isnaB]

theorem eqEmptyStr_true_iff (c : Cell) : c.eqEmptyStr = true ↔ c = Cell.str "" := by
  cases c <;> simp [Cell.eqEmptyStr]

theorem urlB_true_iff (c : Cell) : c.urlB = true ↔ ∃ s, c = Cell.str s ∧ is_url s = true := by
  cases c <;> simp [Cell.urlB]

theorem cellEmpty_iff (c : Cell) : cellEmpty c ↔ (c.isnaB || c.eqEmptyStr) = true := by
  unfold cellEmpty
  rw [Bool.or_eq_true, isnaB_true_iff, eqEmptyStr_true_iff]

theorem idxOf_drop {c : Char} : ∀ {l : List Char} {i : Nat}, idxOf c l = some i →
    ∃ t, l.drop i = c :: t
  | [], i, h => by simp [idxOf] at h
  | x :: xs, i, h => by
    rw [idxOf] at h
    split at h
    · next hx =>
      injection h with h2
      subst h2
      rw [beq_iff_eq] at hx
      subst hx
      exact ⟨xs, rfl⟩
    · cases hxs : idxOf c xs with
      | none => rw [hxs] at h; simp at h
      | some k =>
        rw [hxs] at h
        simp only [Option.map_some'] at h
        injection h with h2
        subst h2
        obtain ⟨t, ht⟩ := idxOf_drop hxs
        exact ⟨t, by simpa using ht⟩

theorem parseJVal_zero (cs : List Char) : parseJVal 0 cs = none := rfl

theorem parseJVal_succ_brace (f : Nat) (t : List Char) :
    parseJVal (f + 1) ('\x7b' :: t) =
      (match skipWs t with
       | '\x7d' :: r => some (JValue.obj [], r)
       | cs1 =>
         match parseJMembers f cs1 with
         | some (kvs, r) => some (JValue.obj kvs, r)
         | none => none) := rfl

theorem parseJVal_brace_isObj (fuel : Nat) (t : List Char) (v : JValue) (rest : List Char)
    (h : parseJVal fuel ('\x7b' :: t) = some (v, rest)) : v.isObj = true := by
  match fuel with
  | 0 => rw [parseJVal_zero] at h; simp at h
  | f + 1 =>
    rw [parseJVal_succ_brace] at h
    split at h
    · injection h with h2
      have h3 : v = JValue.obj [] := (Prod.mk.injEq _ _ _ _ ▸ h2.symm).1
      rw [h3]
      rfl
    · split at h
      · next kvs r hm =>
        injection h with h2
        have h3 : v = JValue.obj kvs := (Prod.mk.injEq _ _ _ _ ▸ h2.symm).1
        rw [h3]
        rfl
      · simp at h

theorem skipWs_brace (t : List Char) : skipWs ('\x7b' :: t) = '\x7b' :: t := by
  unfold skipWs
  rw [List.dropWhile_cons]
  simp [jsonWs]

theorem loadsL_brace_isObj {t : List Char} {v : JValue} (h : loadsL ('\x7b' :: t) = some v) :
    v.isObj = true := by
  unfold loadsL at h
  rw [skipWs_brace] at h
  cases hp : parseJVal (('\x7b' :: t).length + 1) ('\x7b' :: t) with
  | none => rw [hp] at h; simp at h
  | some pr =>
    rw [hp] at h
    obtain ⟨v2, rest⟩ := pr
    have hv2 : v2 = v := by
      simp only at h
      split at h
      · injection h
      · simp at h
    subst hv2
    exact parseJVal_brace_isObj _ _ _ _ hp

/-! Claim theorems. -/

/-- C1 counterexample: the claim says quantity normalization always returns
the empty string or a string of decimal digits, but the input "several"
passes through unchanged: the `Number_Places` branch of
`DataFormatter.process_results` returns "several", which is neither empty
nor made of digits. -/
theorem C1_counterexample :
    process_results 2025 [("Number_Places", JValue.str "several")] =
      .ok [("Number_Places", "several")] ∧
    ¬(("several" : String) = "" ∨ ("several" : String).data.all Char.isDigit = true) := by
  constructor
  · rfl
  · decide

/-- C1 (amended): for every input value, the `Number_Places` branch of
`DataFormatter.process_results` returns the empty string, a string of
decimal digits, or the stripped string form of the input (non-numeric,
non-mappable values pass through stripped, with only a logged warning). -/
theorem C1_quantity_amended (curYear : Nat) (v : JValue) :
    process_results curYear [("Number_Places", v)] =
      .ok [("Number_Places", quantityBranch v)] ∧
    (quantityBranch v = "" ∨ (quantityBranch v).data.all Char.isDigit = true ∨
      quantityBranch v = String.mk (pyStrip (pyStr v).data)) := by
  constructor
  · rfl
  · unfold quantityBranch
    split
    · next hc =>
      right; left
      rw [Bool.and_eq_true] at hc
      have hd := hc.2
      unfold isDigits at hd
      rw [Bool.and_eq_true] at hd
      exact hd.2
    · split
      · dsimp only
        split
        · next n heq =>
          right; left
          exact english_digits heq
        · right; right; rfl
      · left; rfl

/-- C2: a row is selected by `ExcelProcessor.filter_rows` iff its `Notes`
cell is empty or a string matching the URL pattern (anchored at the start of
the stripped string), its `Verifier` cell is empty, and its `Error` cell is
empty; in particular a row with non-empty `Verifier` is never selected. -/
theorem C2_row_selector :
    ∀ notes verifier error : Cell,
      (rowEligible notes verifier error = true ↔
        ((cellEmpty notes ∨ ∃ s, notes = Cell.str s ∧ is_url s = true) ∧
          cellEmpty verifier ∧ cellEmpty error)) ∧
      (¬ cellEmpty verifier → rowEligible notes verifier error = false) := by
  intro notes verifier error
  have hiff : rowEligible notes verifier error = true ↔
      ((cellEmpty notes ∨ ∃ s, notes = Cell.str s ∧ is_url s = true) ∧
        cellEmpty verifier ∧ cellEmpty error) := by
    unfold rowEligible
    simp only [Bool.and_eq_true, Bool.or_eq_true, isnaB_true_iff, eqEmptyStr_true_iff,
      urlB_true_iff, cellEmpty_iff]
    tauto
  refine ⟨hiff, ?_⟩
  intro hnv
  cases heq : rowEligible notes verifier error with
  | false => rfl
  | true => exact absurd (hiff.mp heq).2.1 hnv

/-- C2 witness: a row whose `Notes` holds a URL and whose `Verifier` and
`Error` are missing is selected; a row with `Verifier` = "LLM" is not. -/
theorem C2_row_selector_witness :
    rowEligible (Cell.str "http://example.com") Cell.na Cell.na = true ∧
    rowEligible Cell.na (Cell.str "LLM") Cell.na = false := by
  constructor
  · exact (C2_row_selector (Cell.str "http://example.com") Cell.na Cell.na).1.mpr
      ⟨Or.inr ⟨_, rfl, by decide⟩, Or.inl rfl, Or.inl rfl⟩
  · exact (C2_row_selector Cell.na (Cell.str "LLM") Cell.na).2
      (by intro h; rcases h with h | h <;> simp at h)

/-- C3 counterexample: on the reply `["{", "}"]` the braces are found in
order (indices 2 and 7), the brace substring fails to decode, and the entire
reply is valid JSON; the claim says the parser then attempts (and here would
succeed at) decoding the entire reply, returning the empty mapping only when
both attempts fail — but `_parse_model_output` returns the empty mapping. -/
theorem C3_counterexample :
    pyFindChar ("[\"\x7b\", \"\x7d\"]" : String).data '\x7b' = 2 ∧
    pyRfindChar ("[\"\x7b\", \"\x7d\"]" : String).data '\x7d' = 7 ∧
    loadsL ("[\"\x7b\", \"\x7d\"]" : String).data =
      some (JValue.arr [JValue.str "\x7b", JValue.str "\x7d"]) ∧
    parse_model_output "[\"\x7b\", \"\x7d\"]" = JValue.obj [] := by
  exact ⟨rfl, rfl, rfl, rfl⟩

/-- C3 (amended): the parser locates the first brace and the last closing
brace; when both exist in order it decodes that substring, returning the
empty mapping on decode failure with no further attempt; only when no
ordered brace pair exists does it decode the entire reply, returning the
empty mapping if that fails. -/
theorem C3_parse_amended (output : String) :
    parse_model_output output = parse_model_output_amended output := by
  unfold parse_model_output parse_model_output_amended
  simp only [pyFindChar, pyRfindChar]
  cases hi : idxOf '\x7b' output.data <;> cases hj : lastIdxOf '\x7d' output.data <;>
    simp only []
  · rw [if_neg (by omega)]
  · rw [if_neg (by omega)]
  · rw [if_neg (by omega)]
  · next i j =>
    by_cases hij : i ≤ j
    · rw [if_pos (by omega), if_pos hij]
      have h1 : (((j : Int)) + 1).toNat = j + 1 := by omega
      have h2 : ((i : Int)).toNat = i := by omega
      rw [h1, h2]
    · rw [if_neg (by omega), if_neg hij]

/-- C4 counterexample: the claim says `_parse_model_output` always returns a
mapping, but on the braceless reply "[1]" it returns the decoded JSON array
`[1]`, which is not a mapping. -/
theorem C4_counterexample :
    parse_model_output "[1]" = JValue.arr [JValue.num 1] ∧
    (JValue.arr [JValue.num 1]).isObj = false := by
  exact ⟨rfl, rfl⟩

/-- C4 (amended): `_parse_model_output` is total (never propagates a
decoding error) and returns either a mapping (the decoded object, or the
empty mapping on failure), or — when no ordered brace pair exists and the
entire reply decodes to a non-object JSON value — that decoded value. -/
theorem C4_parse_amended (output : String) :
    (parse_model_output output).isObj = true ∨
      loadsL output.data = some (parse_model_output output) := by
  unfold parse_model_output
  dsimp only
  split
  · next hcond =>
    obtain ⟨h0, hlt⟩ := hcond
    cases hi : idxOf '\x7b' output.data with
    | none => simp only [pyFindChar, hi] at h0; exact absurd h0 (by norm_num)
    | some i =>
      cases hj : lastIdxOf '\x7d' output.data with
      | none =>
        simp only [pyFindChar, hi] at h0 hlt
        simp only [pyRfindChar, hj] at hlt
        omega
      | some j =>
        have hij : i ≤ j := by
          simp only [pyFindChar, hi, pyRfindChar, hj] at hlt
          omega
        obtain ⟨t, ht⟩ := idxOf_drop hi
        have hslice : (output.data.take (pyRfindChar output.data '\x7d' + 1).toNat).drop
            (pyFindChar output.data '\x7b').toNat = '\x7b' :: t.take (j - i) := by
          simp only [pyFindChar, hi, pyRfindChar, hj]
          have h1 : (((j : Int)) + 1).toNat = j + 1 := by omega
          have h2 : ((i : Int)).toNat = i := by omega
          rw [h1, h2, List.drop_take, ht, show j + 1 - i = (j - i) + 1 from by omega,
            List.take_succ_cons]
        rw [hslice]
        cases hl : loadsL ('\x7b' :: t.take (j - i)) with
        | none => left; rfl
        | some v => left; exact loadsL_brace_isObj hl
  · cases hl : loadsL output.data with
    | none => left; rfl
    | some v => right; rfl

/-- C6: for every input value with a normalization output (the function
raises only on multi-element arrays), `DataFormatter.normalize_value`
returns "1", the empty string, or a non-empty string of decimal digits;
and every non-empty pure-digit string outside the yes/no synonym sets
("1" and "0" are the only digit members) is preserved verbatim. -/
theorem C6_category_closure :
    (∀ (v : JValue) (out : String), normalize_value v = .ok out →
      out = "1" ∨ out = "" ∨ (out ≠ "" ∧ out.data.all Char.isDigit = true)) ∧
    (∀ s : String, s ≠ "" → s.data.all Char.isDigit = true → s ≠ "1" → s ≠ "0" →
      normalize_value (JValue.str s) = .ok s) := by
  constructor
  · intro v out h
    unfold normalize_value at h
    split at h
    · exact absurd h (by simp)
    · split at h
      · injection h with h2
        right; left; exact h2.symm
      · dsimp only at h
        split at h
        · injection h with h2
          left; exact h2.symm
        · split at h
          · injection h with h2
            right; left; exact h2.symm
          · split at h
            · split at h
              · next hd =>
                injection h with h2
                subst h2
                right; right
                unfold isDigits at hd
                rw [Bool.and_eq_true] at hd
                refine ⟨?_, hd.2⟩
                intro he
                have hl2 : listLower (pyStrip (pyStr v).data) = [] := congrArg String.data he
                rw [hl2] at hd
                simp at hd
              · injection h with h2
                left; exact h2.symm
            · injection h with h2
              right; left; exact h2.symm
  · intro s hne hdig h1 h0
    have hstrip : pyStrip s.data = s.data := pyStrip_of_digits _ hdig
    have hlower : listLower s.data = s.data := listLower_of_digits _ hdig
    have hmk : String.mk s.data = s := rfl
    unfold normalize_value
    have hpd : pdIsna (JValue.str s) = .ok false := rfl
    rw [hpd]
    simp only [Bool.false_or]
    rw [if_neg (by simp [eqEmptyString, hne])]
    simp only [pyStr, hstrip, hlower, hmk]
    rw [if_neg (by
      intro hmem
      simp only [yesList, List.mem_cons, List.not_mem_nil, or_false] at hmem
      rcases hmem with rfl | rfl | rfl | rfl
      · exact absurd hdig (by decide)
      · exact absurd hdig (by decide)
      · exact absurd hdig (by decide)
      · exact h1 rfl)]
    rw [if_neg (by
      intro hmem
      simp only [noList, List.mem_cons, List.not_mem_nil, or_false] at hmem
      rcases hmem with rfl | rfl | rfl | rfl
      · exact absurd hdig (by decide)
      · exact absurd hdig (by decide)
      · exact absurd hdig (by decide)
      · exact h0 rfl)]
    rw [if_pos (by
      refine ⟨hne, ?_⟩
      rintro rfl
      exact absurd hdig (by decide))]
    rw [if_pos (by
      unfold isDigits
      rw [Bool.and_eq_true]
      refine ⟨?_, hdig⟩
      have hd : s.data ≠ [] := fun hh => hne (data_nil_iff.mp hh)
      cases hs : s.data with
      | nil => exact absurd hs hd
      | cons a t => rfl)]

/-- C6 witness: the closure holds at the concrete output of input "1904",
and "1904" itself is preserved verbatim. -/
theorem C6_category_closure_witness :
    (("1904" : String) = "1" ∨ ("1904" : String) = "" ∨
      (("1904" : String) ≠ "" ∧ ("1904" : String).data.all Char.isDigit = true)) ∧
    normalize_value (JValue.str "1904") = .ok "1904" := by
  have h2 := C6_category_closure.2 "1904" (by decide) (by decide) (by decide) (by decide)
  exact ⟨C6_category_closure.1 (JValue.str "1904") "1904" h2, h2⟩

theorem tryFormats_none (curYear : Nat) (cs : List Char) :
    ∀ L : List String, (∀ fmt ∈ L, strptimeL fmt cs = none) → tryFormats curYear cs L = none
  | [], _ => rfl
  | fmt :: rest, h => by
    rw [tryFormats, h fmt (List.mem_cons_self _ _)]
    exact tryFormats_none curYear cs rest (fun f hf => h f (List.mem_cons_of_mem _ hf))

/-- C5 counterexample: the claim says a date string matching none of the
rewrites and patterns is returned unchanged, but `DataFormatter.format_date`
strips the input before anything else: the unparseable input
" not a date " comes back as "not a date", not unchanged. -/
theorem C5_counterexample :
    format_date 2025 (JValue.str " not a date ") = .ok "not a date" ∧
    ("not a date" : String) ≠ " not a date " := by
  exact ⟨rfl, by decide⟩

/-- C5 (amended): `DataFormatter.format_date` (for any current year) maps
"9th of June, 2025" to "2025-06-09", "26.Jun.2025" to "2025-06-26",
"15 July, 2025" to "2025-07-15" and "Tuesday 30 September 2025" to
"2025-09-30"; and every date string whose stripped form matches none of the
three rewrites, none of the 31 `strptime` formats, and not the weekday
search pattern is returned stripped of surrounding whitespace (hence
unchanged whenever it carries none). -/
theorem C5_date_amended (curYear : Nat) :
    format_date curYear (JValue.str "9th of June, 2025") = .ok "2025-06-09" ∧
    format_date curYear (JValue.str "26.Jun.2025") = .ok "2025-06-26" ∧
    format_date curYear (JValue.str "15 July, 2025") = .ok "2025-07-15" ∧
    format_date curYear (JValue.str "Tuesday 30 September 2025") = .ok "2025-09-30" ∧
    (∀ s : String,
      specialRewrite (pyStrip s.data) = none →
      dotRewrite (pyStrip s.data) = none →
      commaRewrite (pyStrip s.data) = none →
      (∀ fmt ∈ dateFormatsList, strptimeL fmt (pyStrip s.data) = none) →
      weekdaySearchAux (pyStrip s.data) = none →
      format_date curYear (JValue.str s) = .ok (String.mk (pyStrip s.data))) := by
  refine ⟨by rfl, by rfl, by rfl, by rfl, ?_⟩
  intro s h1 h2 h3 h4 h5
  by_cases hse : s = ""
  · subst hse
    rfl
  · have ht : pyTruthy (JValue.str s) = true := by
      unfold pyTruthy
      simp [bne, hse]
    have hpd : pdIsna (JValue.str s) = .ok false := rfl
    unfold format_date
    rw [if_neg (by rw [ht]; simp), hpd]
    dsimp only
    have hps : pyStr (JValue.str s) = s := rfl
    rw [hps, h1, h2, h3, tryFormats_none curYear (pyStrip s.data) dateFormatsList h4]
    unfold weekdayFallback
    rw [h5]
    rfl

/-- C5 witness: the unparseable, already-trimmed input "hello" is returned
unchanged (at current year 2024). -/
theorem C5_date_amended_witness :
    format_date 2024 (JValue.str "hello") = .ok "hello" :=
  (C5_date_amended 2024).2.2.2.2 "hello" (by decide) (by decide) (by decide)
    (by decide) (by decide)

theorem idxOfStr_none_of_not_mem {name : String} :
    ∀ {cols : List String}, name ∉ cols → idxOfStr name cols = none
  | [], _ => rfl
  | c :: t, h => by
    rw [idxOfStr, if_neg (by
      intro hbeq
      exact h (beq_iff_eq.mp hbeq ▸ List.mem_cons_self c t)),
      idxOfStr_none_of_not_mem (fun hm => h (List.mem_cons_of_mem _ hm))]
    rfl

theorem getColumnIndex_eq_zero_of_not_mem {cols : List String} {f : String} (h : f ∉ cols) :
    getColumnIndex cols f = 0 := by
  unfold getColumnIndex
  rw [idxOfStr_none_of_not_mem h]

theorem idxOfStr_some_of_mem {name : String} :
    ∀ {cols : List String}, name ∈ cols → ∃ i, idxOfStr name cols = some i
  | c :: t, h => by
    rw [idxOfStr]
    by_cases hc : c == name
    · exact ⟨0, if_pos hc ▸ rfl⟩
    · rw [if_neg (by simp [hc])]
      have hm : name ∈ t := by
        rcases List.mem_cons.mp h with h1 | h1
        · exact absurd (beq_iff_eq.mpr h1.symm) hc
        · exact h1
      obtain ⟨i, hi⟩ := idxOfStr_some_of_mem hm
      exact ⟨i + 1, by rw [hi]; rfl⟩

theorem getColumnIndex_ne_zero_of_mem {cols : List String} {f : String} (h : f ∈ cols) :
    getColumnIndex cols f ≠ 0 := by
  unfold getColumnIndex
  obtain ⟨i, hi⟩ := idxOfStr_some_of_mem h
  rw [hi]
  exact Nat.succ_ne_zero i

/-- C8: a Failure write (`ExcelProcessor.write_results` with `has_error=True`)
writes the message into the row's `Error` cell and changes no other cell:
every extraction column and the `Verifier` column of the row (and every
other row) are left unchanged. -/
theorem C8_error_write_frame (curYear : Nat) (cols : List String) (ws : Worksheet)
    (idx : Nat) (results : JValue) (msg : String) (hmem : "Error" ∈ cols) :
    write_results curYear cols ws idx results true msg (idx + 2)
      (getColumnIndex cols "Error") = Cell.str msg ∧
    (∀ r c : Nat, ¬(r = idx + 2 ∧ c = getColumnIndex cols "Error") →
      write_results curYear cols ws idx results true msg r c = ws r c) := by
  have hec : getColumnIndex cols "Error" ≠ 0 := getColumnIndex_ne_zero_of_mem hmem
  unfold write_results
  dsimp only
  rw [if_pos rfl, if_neg hec]
  unfold setCell
  constructor
  · rw [if_pos ⟨rfl, rfl⟩]
  · intro r c hrc
    rw [if_neg hrc]

/-- C8 witness: on the concrete sheet with columns Source/Notes/Verifier/Error,
an error write to row 0 puts the message in cell (2,4) and leaves the
Verifier cell (2,3) untouched. -/
theorem C8_error_write_frame_witness :
    write_results 2025 ["Source", "Notes", "Verifier", "Error"] (fun _ _ => Cell.na) 0
      (JValue.obj []) true "boom" 2 (getColumnIndex ["Source", "Notes", "Verifier", "Error"] "Error") =
      Cell.str "boom" ∧
    write_results 2025 ["Source", "Notes", "Verifier", "Error"] (fun _ _ => Cell.na) 0
      (JValue.obj []) true "boom" 2 3 = Cell.na := by
  have h := C8_error_write_frame 2025 ["Source", "Notes", "Verifier", "Error"]
    (fun _ _ => Cell.na) 0 (JValue.obj []) "boom" (by decide)
  exact ⟨h.1, (h.2 2 3 (by decide)).trans rfl⟩

theorem processOne_tf_irrel (curYear : Nat) (tf tf2 : List String) (k : String) (v : JValue) :
    processOne curYear tf k v = processOne curYear tf2 k v := by
  unfold processOne
  rw [ite_self, ite_self]

theorem processList_cons (curYear : Nat) (tf : List String) (k : String) (v : JValue)
    (t : List (String × JValue)) :
    processList curYear tf ((k, v) :: t) =
      (match processOne curYear tf k v with
       | .error e => .error e
       | .ok o =>
         match processList curYear tf t with
         | .error e => .error e
         | .ok r => .ok ((k, o) :: r)) := rfl

theorem processList_filter (curYear : Nat) (tf tf2 : List String) (f : String) :
    ∀ (kvs : List (String × JValue)) (ps : List (String × String)),
      processList curYear tf kvs = .ok ps →
      processList curYear tf2 (kvs.filter (fun p => p.1 != f)) =
        .ok (ps.filter (fun q => q.1 != f))
  | [], ps, h => by
    rw [processList] at h
    injection h with h2
    subst h2
    rfl
  | (k, v) :: t, ps, h => by
    rw [processList_cons] at h
    cases ho : processOne curYear tf k v with
    | error e => rw [ho] at h; simp at h
    | ok o =>
      rw [ho] at h
      cases hr : processList curYear tf t with
      | error e => rw [hr] at h; simp at h
      | ok r =>
        rw [hr] at h
        injection h with h2
        subst h2
        have ih := processList_filter curYear tf tf2 f t r hr
        by_cases hk : k = f
        · subst hk
          rw [List.filter_cons_of_neg, List.filter_cons_of_neg]
          · exact ih
          · simp
          · simp
        · have hbne : (k != f) = true := bne_iff_ne.mpr hk
          rw [List.filter_cons_of_pos, List.filter_cons_of_pos]
          · rw [processList_cons, ← processOne_tf_irrel curYear tf tf2 k v, ho, ih]
          · exact hbne
          · exact hbne

theorem foldl_write_filter (cols : List String) (f : String) (hf : getColumnIndex cols f = 0)
    (excelRow : Nat) :
    ∀ (ps : List (String × String)) (ws : Worksheet),
      ps.foldl (fun w p =>
        if getColumnIndex cols p.1 = 0 then w
        else setCell w excelRow (getColumnIndex cols p.1) (Cell.str p.2)) ws =
      (ps.filter (fun q => q.1 != f)).foldl (fun w p =>
        if getColumnIndex cols p.1 = 0 then w
        else setCell w excelRow (getColumnIndex cols p.1) (Cell.str p.2)) ws
  | [], ws => rfl
  | (k, o) :: t, ws => by
    by_cases hk : k = f
    · subst hk
      rw [List.filter_cons_of_neg, List.foldl_cons, if_pos hf]
      · exact foldl_write_filter cols k hf excelRow t ws
      · simp
    · rw [List.filter_cons_of_pos, List.foldl_cons, List.foldl_cons]
      · exact foldl_write_filter cols f hf excelRow t _
      · exact bne_iff_ne.mpr hk

/-- C10: on a success write, a normalized field whose name is not among the
loaded columns is silently skipped: `_get_column_index` returns 0 for the
unknown name and `write_results` then writes nothing for it, so (whenever
normalization succeeds) the write is identical to the write without that
field — invented field names never fail the row and never touch a cell. -/
theorem C10_unknown_field_skipped (cols : List String) (f : String) (hf : f ∉ cols) :
    getColumnIndex cols f = 0 ∧
    ∀ (curYear : Nat) (ws : Worksheet) (idx : Nat) (kvs : List (String × JValue))
      (ps : List (String × String)), process_results curYear kvs = .ok ps →
      write_results curYear cols ws idx (JValue.obj kvs) false "" =
        write_results curYear cols ws idx (JValue.obj (kvs.filter (fun p => p.1 != f)))
          false "" := by
  have h0 : getColumnIndex cols f = 0 := getColumnIndex_eq_zero_of_not_mem hf
  refine ⟨h0, ?_⟩
  intro curYear ws idx kvs ps hok
  have hok2 := processList_filter curYear (textFieldsOf (kvs.map Prod.fst))
    (textFieldsOf ((kvs.filter (fun p => p.1 != f)).map Prod.fst)) f kvs ps hok
  unfold process_results at hok
  unfold write_results process_results
  dsimp only
  rw [hok, hok2]
  dsimp only
  rw [foldl_write_filter cols f h0 (idx + 2) ps ws]

/-- C10 witness: with columns Source/Error, the invented field "Made_Up"
gets column index 0 and writing a reply containing only it equals writing
the reply with it removed. -/
theorem C10_unknown_field_skipped_witness :
    getColumnIndex ["Source", "Error"] "Made_Up" = 0 ∧
    write_results 2025 ["Source", "Error"] (fun _ _ => Cell.na) 0
      (JValue.obj [("Made_Up", JValue.str " x ")]) false "" =
      write_results 2025 ["Source", "Error"] (fun _ _ => Cell.na) 0
        (JValue.obj (([("Made_Up", JValue.str " x ")]).filter
          (fun p => p.1 != "Made_Up"))) false "" := by
  have h := C10_unknown_field_skipped ["Source", "Error"] "Made_Up" (by decide)
  exact ⟨h.1, h.2 2025 (fun _ _ => Cell.na) 0 [("Made_Up", JValue.str " x ")]
    [("Made_Up", "x")] (by rfl)⟩

/-- C9 counterexample: the claim says any exception in a row's normalize or
write step is converted into a Failure written to that row's Error column,
but when the model reply is a mapping whose Deadline value is the list
[1, 2], normalization raises inside `write_results`, which swallows the
exception: after the run the row's Error cell is still empty (and Verifier
untouched) — no Failure outcome was recorded. -/
theorem C9_counterexample :
    process_results 2025 [("Deadline", JValue.arr [JValue.num 1, JValue.num 2])] =
      .error "ValueError: truth value of an array is ambiguous" ∧
    parse_model_output "\x7b\"Deadline\": [1, 2]\x7d" =
      JValue.obj [("Deadline", JValue.arr [JValue.num 1, JValue.num 2])] ∧
    runRows 2025 env9 cols9 wsEmpty [row9] 2 (getColumnIndex cols9 "Error") = Cell.na ∧
    runRows 2025 env9 cols9 wsEmpty [row9] 2 (getColumnIndex cols9 "Verifier") = Cell.na :=
  ⟨rfl, rfl, rfl, rfl⟩

/-- C9 (amended): any exception reaching the per-row try block (fetch,
LLM call, parse) is caught at the row boundary and converted into a Failure
outcome: the non-empty message "处理失败: ..." is written to the row's Error
column and the loop proceeds with the remaining rows; an exception inside
the write step (which performs normalization) is instead caught within
`write_results` itself and only logged — the worksheet is left unchanged for
that row. In both cases nothing propagates to the run level. -/
theorem C9_row_isolation_amended :
    (∀ (curYear : Nat) (env : Env) (cols : List String) (ws : Worksheet)
        (pre post : List RowData) (row : RowData) (e : String),
      rowBody curYear env cols (runRows curYear env cols ws pre) row = .error e →
        runRows curYear env cols ws (pre ++ row :: post) =
          runRows curYear env cols
            (write_results curYear cols (runRows curYear env cols ws pre) row.idx
              (JValue.obj []) true ("处理失败: " ++ e)) post ∧
        ("处理失败: " ++ e) ≠ "") ∧
    (∀ (curYear : Nat) (cols : List String) (ws : Worksheet) (idx : Nat)
        (kvs : List (String × JValue)) (e : String),
      process_results curYear kvs = .error e →
        write_results curYear cols ws idx (JValue.obj kvs) false "" = ws) := by
  constructor
  · intro curYear env cols ws pre post row e h
    constructor
    · have hsplit : runRows curYear env cols ws (pre ++ row :: post) =
          runRows curYear env cols
            (processRow curYear env cols (runRows curYear env cols ws pre) row) post := by
        unfold runRows
        rw [List.foldl_append, List.foldl_cons]
      have hstep : processRow curYear env cols (runRows curYear env cols ws pre) row =
          write_results curYear cols (runRows curYear env cols ws pre) row.idx
            (JValue.obj []) true ("处理失败: " ++ e) := by
        unfold processRow
        rw [h]
      rw [hsplit, hstep]
    · intro hh
      have hd := congrArg String.data hh
      rw [String.data_append] at hd
      simp at hd
  · intro curYear cols ws idx kvs e h
    unfold write_results
    dsimp only
    rw [h, if_neg Bool.false_ne_true]

/-- C9 witness: with a failing LLM transport, the single-row run equals the
error write for that row and the written message is non-empty. -/
theorem C9_row_isolation_amended_witness :
    runRows 2025 envT cols9 wsEmpty [row9] =
      write_results 2025 cols9 wsEmpty 0 (JValue.obj []) true
        ("处理失败: " ++ "connection refused") ∧
    ("处理失败: " ++ "connection refused" : String) ≠ "" := by
  have h := C9_row_isolation_amended.1 2025 envT cols9 wsEmpty [] [] row9
    "connection refused" (by rfl)
  exact ⟨h.1, h.2⟩

/-- C7: evidence of the code bug.  The fetcher returns its bracketed
failure-marker string instead of raising; `ExtractionSystem.run` never
inspects the marker, feeds it to the LLM as document text and writes the
row as a success: after the run the row's Error cell is still empty and its
Verifier cell says "LLM" — contradicting the specified Failure outcome. -/
theorem C7_fetch_failure_behavior :
    extract_content env7 "http://example.com/a.pdf" = "[提取失败: timeout]" ∧
    runRows 2025 env7 cols7 wsEmpty [row7] 2 (getColumnIndex cols7 "Error") = Cell.na ∧
    runRows 2025 env7 cols7 wsEmpty [row7] 2 (getColumnIndex cols7 "Verifier") =
      Cell.str "LLM" :=
  ⟨rfl, rfl, rfl⟩

end Extraction
